import Mathlib

/-!
Verification of the campaign dispatcher, inbound webhook normalizer, webhook
relay and gateway client of the WhatsApp messaging gateway repository.

The definitions below are shallow embeddings of the TypeScript source:
* `src/src/modules/campaigns/campaigns.routes.ts` (campaign dispatch loop,
  creation, control and start handlers),
* `src/src/modules/webhooks/webhooks.routes.ts` (inbound webhook ingestion
  and the outbound relay retry loop `sendWebhookWithRetry`),
* the `OfficialWhatsAppManager` gateway client (session map and `getStatus`).

Database rows become Lean structures, Prisma queries become list operations,
JavaScript `||` string defaulting becomes `jsStringOr`, and the process-local
mutable state (`runningProcessors`, the session map) becomes explicit state
passed through transition functions.
-/

namespace OFC

/-- Campaign.status values (Prisma enum). -/
inductive CampaignStatus
  | PENDING
  | RUNNING
  | PAUSED
  | COMPLETED
  | CANCELLED
  deriving DecidableEq, Repr

/-- Message.status values (Prisma enum). -/
inductive MsgStatus
  | PENDING
  | SENT
  | DELIVERED
  | READ
  | FAILED
  deriving DecidableEq, Repr

/-- Return type of `OfficialWhatsAppManager.getStatus`
(`"disconnected" | "connecting" | "connected" | "qr" | "not_found"`). -/
inductive InstanceStatus
  | disconnected
  | connecting
  | connected
  | qr
  | not_found
  deriving DecidableEq, Repr

/-- JavaScript `a || dflt` on a possibly-undefined string: the empty string is
falsy, so `some ""` also falls through to the default. -/
def jsStringOr (a : Option String) (dflt : String) : String :=
  match a with
  | some s => if s = "" then dflt else s
  | none => dflt

/-- One row of the `Message` table as created for a campaign
(`prisma.campaign.create` / touched by `processCampaign`).
The payload fields `from` and `to` are spelled `msgFrom` and `toNumber`
(`from` and `to` are Lean keywords). -/
structure OutboundMessage where
  mid : Nat
  toNumber : String
  msgFrom : String
  body : String
  mediaUrl : Option String
  mediaType : String
  status : MsgStatus
  errorMsg : Option String
  waMessageId : Option String
  sentAt : Option Nat
  createdAt : Nat
  deriving DecidableEq, Repr

/-- The campaign columns read and written by the dispatcher and handlers. -/
structure Campaign where
  status : CampaignStatus
  totalMessages : Nat
  sentMessages : Nat
  failedMessages : Nat
  delay : Nat
  startedAt : Option Nat
  completedAt : Option Nat
  deriving DecidableEq, Repr

/-- The durable store as one campaign sees it: its own row plus its
`Message` rows in creation order (`createdAt` ascending). -/
structure DispatchState where
  campaign : Campaign
  messages : List OutboundMessage
  deriving DecidableEq, Repr

/-- Outcome of the gateway send call inside the loop body
(`waManager.sendMedia` / `waManager.sendText`): either it resolves, or it
throws with an error message (`OfficialWhatsAppManager.apiRequest` throws on a
non-ok response). -/
inductive SendOutcome
  | success
  | failure (errMsg : String)
  deriving DecidableEq, Repr

/-- How one pass of the `while (true)` body of `processCampaign` ended. -/
inductive IterResult
  | exitNotRunning
  | exitPausedDisconnected
  | exitCompleted
  | continueLoop
  deriving DecidableEq, Repr

/-- `prisma.message.findFirst({ where: { campaignId, status: 'PENDING' },
orderBy: { createdAt: 'asc' } })`: the message list is kept in creation order,
so this is the first element with status PENDING. -/
def findFirstPending : List OutboundMessage → Option OutboundMessage
  | [] => none
  | m :: ms => if m.status = MsgStatus.PENDING then some m else findFirstPending ms

/-- `prisma.message.update({ where: { id }, data })`: rewrite the unique row
with the given id. -/
def updateMessageById (mid : Nat) (f : OutboundMessage → OutboundMessage)
    (msgs : List OutboundMessage) : List OutboundMessage :=
  msgs.map fun m => if m.mid = mid then f m else m

/-- One pass of the `while (true)` body of `processCampaign`:
reload the campaign, exit if not RUNNING; pause and exit if the instance is
not connected; pick the oldest PENDING message, completing the campaign if
none is left; otherwise send it and record SENT / FAILED plus the counter
increment.  `now` stands for `new Date()`. -/
def processIteration (st : DispatchState) (instStatus : InstanceStatus)
    (outcome : SendOutcome) (now : Nat) : DispatchState × IterResult :=
  if st.campaign.status ≠ CampaignStatus.RUNNING then
    (st, IterResult.exitNotRunning)
  else if instStatus ≠ InstanceStatus.connected then
    ({ st with campaign := { st.campaign with status := CampaignStatus.PAUSED } },
      IterResult.exitPausedDisconnected)
  else
    match findFirstPending st.messages with
    | none =>
        ({ st with campaign :=
            { st.campaign with status := CampaignStatus.COMPLETED, completedAt := some now } },
          IterResult.exitCompleted)
    | some m =>
        match outcome with
        | SendOutcome.success =>
            ({ campaign := { st.campaign with sentMessages := st.campaign.sentMessages + 1 },
               messages := updateMessageById m.mid
                 (fun x => { x with status := MsgStatus.SENT, sentAt := some now })
                 st.messages },
              IterResult.continueLoop)
        | SendOutcome.failure err =>
            ({ campaign := { st.campaign with failedMessages := st.campaign.failedMessages + 1 },
               messages := updateMessageById m.mid
                 (fun x => { x with status := MsgStatus.FAILED, errorMsg := some err })
                 st.messages },
              IterResult.continueLoop)

/-- Request body of `POST /campaign/simple` after zod validation. -/
structure SimpleCampaignInput where
  name : String
  messageType : String
  messageText : Option String
  messageMediaUrl : Option String
  messageCaption : Option String
  recipients : List String
  delay : Nat
  deriving DecidableEq, Repr

/-- The `prisma.campaign.create` call of `POST /campaign/simple`:
`totalMessages: data.recipients.length` and one PENDING message per recipient
with `body: data.message.text || data.message.caption || ''` and
`from: instance.waNumber || 'unknown'`.
Modelled from the spec where the Prisma schema (absent from src) supplies
defaults: initial status PENDING and zero sent/failed counters. -/
def createSimpleCampaign (inp : SimpleCampaignInput) (instWaNumber : Option String)
    (createdAt : Nat) : DispatchState :=
  { campaign :=
      { status := CampaignStatus.PENDING
        totalMessages := inp.recipients.length
        sentMessages := 0
        failedMessages := 0
        delay := inp.delay
        startedAt := none
        completedAt := none }
    messages :=
      ((List.range inp.recipients.length).zip inp.recipients).map fun p =>
        { mid := p.1
          toNumber := p.2
          msgFrom := jsStringOr instWaNumber "unknown"
          body := jsStringOr inp.messageText (jsStringOr inp.messageCaption "")
          mediaUrl := inp.messageMediaUrl
          mediaType := if inp.messageType = "media" then "image" else "text"
          status := MsgStatus.PENDING
          errorMsg := none
          waMessageId := none
          sentAt := none
          createdAt := createdAt } }

/-- The `action` field of `POST /campaign/:id/control`. -/
inductive ControlAction
  | pause
  | resume
  | cancel
  deriving DecidableEq, Repr

/-- An `HTTPException(400, ...)` raised by the control / start handlers. -/
inductive ClientError
  | badRequest (msg : String)
  deriving DecidableEq, Repr

/-- What a successful control action does: the status it writes and whether it
fires `void processCampaign(id)` afterwards. -/
structure ControlOutcome where
  newStatus : CampaignStatus
  reinvokesLoop : Bool
  deriving DecidableEq, Repr

/-- The `switch (action)` of the `POST /campaign/:id/control` handler:
pause only from RUNNING, resume only from PAUSED (re-invoking the loop),
cancel whenever the campaign is not COMPLETED or CANCELLED. -/
def controlCampaign (action : ControlAction) (status : CampaignStatus) :
    Except ClientError ControlOutcome :=
  match action with
  | ControlAction.pause =>
      if status ≠ CampaignStatus.RUNNING then
        Except.error (ClientError.badRequest "Campaign is not running")
      else
        Except.ok { newStatus := CampaignStatus.PAUSED, reinvokesLoop := false }
  | ControlAction.resume =>
      if status ≠ CampaignStatus.PAUSED then
        Except.error (ClientError.badRequest "Campaign is not paused")
      else
        Except.ok { newStatus := CampaignStatus.RUNNING, reinvokesLoop := true }
  | ControlAction.cancel =>
      if status = CampaignStatus.COMPLETED ∨ status = CampaignStatus.CANCELLED then
        Except.error (ClientError.badRequest "Campaign already finished")
      else
        Except.ok { newStatus := CampaignStatus.CANCELLED, reinvokesLoop := false }

/-- The `POST /campaign/:id/start` handler: rejected unless the campaign is
PENDING and `waManager.getStatus` reports "connected"; on success the status
becomes RUNNING (with `startedAt`) and `void processCampaign(id)` runs. -/
def startCampaign (status : CampaignStatus) (instStatus : InstanceStatus) :
    Except ClientError ControlOutcome :=
  if status ≠ CampaignStatus.PENDING then
    Except.error (ClientError.badRequest "Campaign already started or finished")
  else if instStatus ≠ InstanceStatus.connected then
    Except.error (ClientError.badRequest "Instance is not connected")
  else
    Except.ok { newStatus := CampaignStatus.RUNNING, reinvokesLoop := true }

/-- The status stored after a control request: the handler either throws
before any update (leaving the row untouched) or writes the new status. -/
def runControl (action : ControlAction) (status : CampaignStatus) : CampaignStatus :=
  match controlCampaign action status with
  | Except.ok r => r.newStatus
  | Except.error _ => status

/-- The status stored after a start request. -/
def runStart (status : CampaignStatus) (instStatus : InstanceStatus) : CampaignStatus :=
  match startCampaign status instStatus with
  | Except.ok r => r.newStatus
  | Except.error _ => status

/-- Write only the campaign status (the update of the control handler). -/
def setStatus (st : DispatchState) (s : CampaignStatus) : DispatchState :=
  { st with campaign := { st.campaign with status := s } }

/-- The update of the start handler: `status: 'RUNNING', startedAt: new Date()`. -/
def applyStart (st : DispatchState) (now : Nat) : DispatchState :=
  { st with campaign :=
      { st.campaign with status := CampaignStatus.RUNNING, startedAt := some now } }

/-- `prisma.message.updateMany({ where: { waMessageId: status.id }, ... })`
from the inbound status-update path: it touches only rows whose
`waMessageId` equals the provider id of the acknowledged message. -/
def ackUpdate (st : DispatchState) (waId : String) (newStatus : MsgStatus) : DispatchState :=
  { st with messages := st.messages.map fun m =>
      if m.waMessageId = some waId then { m with status := newStatus } else m }

/-- Everything that can happen to one campaign's slice of the store:
a dispatch-loop pass, a validated control action, a validated start, or an
inbound acknowledgement update. -/
inductive Step : DispatchState → DispatchState → Prop
  | iter (st : DispatchState) (instStatus : InstanceStatus) (outcome : SendOutcome)
      (now : Nat) : Step st (processIteration st instStatus outcome now).1
  | control (st : DispatchState) (a : ControlAction) (r : ControlOutcome)
      (h : controlCampaign a st.campaign.status = Except.ok r) :
      Step st (setStatus st r.newStatus)
  | start (st : DispatchState) (instStatus : InstanceStatus) (r : ControlOutcome)
      (now : Nat) (h : startCampaign st.campaign.status instStatus = Except.ok r) :
      Step st (applyStart st now)
  | ack (st : DispatchState) (waId : String) (newStatus : MsgStatus) :
      Step st (ackUpdate st waId newStatus)

/-- States a campaign can be in, starting from creation. -/
inductive CReachable : DispatchState → Prop
  | created (inp : SimpleCampaignInput) (instWaNumber : Option String) (createdAt : Nat) :
      CReachable (createSimpleCampaign inp instWaNumber createdAt)
  | step {s s' : DispatchState} : CReachable s → Step s s' → CReachable s'

/-- Number of PENDING messages of the campaign. -/
def pendingCount (msgs : List OutboundMessage) : Nat :=
  (msgs.filter fun m => decide (m.status = MsgStatus.PENDING)).length

/-! ### Branch characterizations of the dispatch-loop body -/

theorem processIteration_not_running (st : DispatchState) (iStat : InstanceStatus)
    (oc : SendOutcome) (now : Nat) (h : st.campaign.status ≠ CampaignStatus.RUNNING) :
    processIteration st iStat oc now = (st, IterResult.exitNotRunning) := by
  unfold processIteration
  rw [if_pos h]

theorem processIteration_disconnected (st : DispatchState) (iStat : InstanceStatus)
    (oc : SendOutcome) (now : Nat) (h : st.campaign.status = CampaignStatus.RUNNING)
    (h2 : iStat ≠ InstanceStatus.connected) :
    processIteration st iStat oc now =
      ({ st with campaign := { st.campaign with status := CampaignStatus.PAUSED } },
        IterResult.exitPausedDisconnected) := by
  unfold processIteration
  rw [if_neg (not_not_intro h), if_pos h2]

theorem processIteration_completed (st : DispatchState) (iStat : InstanceStatus)
    (oc : SendOutcome) (now : Nat) (h : st.campaign.status = CampaignStatus.RUNNING)
    (h2 : iStat = InstanceStatus.connected) (h3 : findFirstPending st.messages = none) :
    processIteration st iStat oc now =
      ({ st with campaign :=
          { st.campaign with status := CampaignStatus.COMPLETED, completedAt := some now } },
        IterResult.exitCompleted) := by
  unfold processIteration
  rw [if_neg (not_not_intro h), if_neg (not_not_intro h2), h3]

theorem processIteration_send_success (st : DispatchState) (iStat : InstanceStatus)
    (now : Nat) (m : OutboundMessage) (h : st.campaign.status = CampaignStatus.RUNNING)
    (h2 : iStat = InstanceStatus.connected) (h3 : findFirstPending st.messages = some m) :
    processIteration st iStat SendOutcome.success now =
      ({ campaign := { st.campaign with sentMessages := st.campaign.sentMessages + 1 },
         messages := updateMessageById m.mid
           (fun x => { x with status := MsgStatus.SENT, sentAt := some now })
           st.messages }, IterResult.continueLoop) := by
  unfold processIteration
  rw [if_neg (not_not_intro h), if_neg (not_not_intro h2), h3]

theorem processIteration_send_failure (st : DispatchState) (iStat : InstanceStatus)
    (now : Nat) (err : String) (m : OutboundMessage)
    (h : st.campaign.status = CampaignStatus.RUNNING)
    (h2 : iStat = InstanceStatus.connected) (h3 : findFirstPending st.messages = some m) :
    processIteration st iStat (SendOutcome.failure err) now =
      ({ campaign := { st.campaign with failedMessages := st.campaign.failedMessages + 1 },
         messages := updateMessageById m.mid
           (fun x => { x with status := MsgStatus.FAILED, errorMsg := some err })
           st.messages }, IterResult.continueLoop) := by
  unfold processIteration
  rw [if_neg (not_not_intro h), if_neg (not_not_intro h2), h3]

/-! ### Selection lemmas -/

theorem findFirstPending_eq_head_filter (msgs : List OutboundMessage) :
    findFirstPending msgs
      = (msgs.filter fun m => decide (m.status = MsgStatus.PENDING)).head? := by
  induction msgs with
  | nil => rfl
  | cons a l ih =>
      by_cases hp : a.status = MsgStatus.PENDING
      · simp [findFirstPending, hp, List.filter_cons]
      · simp [findFirstPending, hp, List.filter_cons, ih]

theorem findFirstPending_mem {msgs : List OutboundMessage} {m : OutboundMessage}
    (h : findFirstPending msgs = some m) :
    m ∈ msgs ∧ m.status = MsgStatus.PENDING := by
  induction msgs with
  | nil => simp [findFirstPending] at h
  | cons a l ih =>
      by_cases hp : a.status = MsgStatus.PENDING
      · rw [findFirstPending, if_pos hp] at h
        injection h with h
        subst h
        exact ⟨List.mem_cons_self a l, hp⟩
      · rw [findFirstPending, if_neg hp] at h
        obtain ⟨hm, hs⟩ := ih h
        exact ⟨List.mem_cons_of_mem a hm, hs⟩

theorem findFirstPending_eq_none_iff (msgs : List OutboundMessage) :
    findFirstPending msgs = none ↔ pendingCount msgs = 0 := by
  induction msgs with
  | nil => simp [findFirstPending, pendingCount]
  | cons a l ih =>
      by_cases hp : a.status = MsgStatus.PENDING
      · simp [findFirstPending, hp, pendingCount, List.filter_cons]
      · simp only [findFirstPending, if_neg hp]
        rw [ih]
        unfold pendingCount
        rw [List.filter_cons, if_neg (by simp [hp])]

theorem findFirstPending_min_createdAt {msgs : List OutboundMessage} {m : OutboundMessage}
    (hsorted : msgs.Pairwise fun a b => a.createdAt ≤ b.createdAt)
    (h : findFirstPending msgs = some m) :
    ∀ x ∈ msgs, x.status = MsgStatus.PENDING → m.createdAt ≤ x.createdAt := by
  induction msgs with
  | nil => simp [findFirstPending] at h
  | cons a l ih =>
      rw [List.pairwise_cons] at hsorted
      by_cases hp : a.status = MsgStatus.PENDING
      · rw [findFirstPending, if_pos hp] at h
        injection h with h
        subst h
        intro x hx _
        rcases List.mem_cons.mp hx with hxa | hxl
        · rw [hxa]
        · exact hsorted.1 x hxl
      · rw [findFirstPending, if_neg hp] at h
        intro x hx hxs
        rcases List.mem_cons.mp hx with hxa | hxl
        · exact absurd (hxa ▸ hxs) hp
        · exact ih hsorted.2 h x hxl hxs

/-! ### Update lemmas -/

theorem map_update_eq_self (mid : Nat) (f : OutboundMessage → OutboundMessage)
    (msgs : List OutboundMessage) (h : ∀ x ∈ msgs, x.mid ≠ mid) :
    (msgs.map fun x => if x.mid = mid then f x else x) = msgs := by
  induction msgs with
  | nil => rfl
  | cons a l ih =>
      simp only [List.map_cons]
      rw [if_neg (h a (List.mem_cons_self a l)),
        ih fun x hx => h x (List.mem_cons_of_mem a hx)]

/-- Proof helper: rewrite the first PENDING entry in place. -/
def replaceFirstPending (f : OutboundMessage → OutboundMessage) :
    List OutboundMessage → List OutboundMessage
  | [] => []
  | m :: ms =>
      if m.status = MsgStatus.PENDING then f m :: ms else m :: replaceFirstPending f ms

theorem updateMessageById_eq_replaceFirstPending
    (f : OutboundMessage → OutboundMessage) {msgs : List OutboundMessage}
    {m : OutboundMessage} (hnd : (msgs.map OutboundMessage.mid).Nodup)
    (h : findFirstPending msgs = some m) :
    updateMessageById m.mid f msgs = replaceFirstPending f msgs := by
  induction msgs with
  | nil => simp [findFirstPending] at h
  | cons a l ih =>
      simp only [List.map_cons, List.nodup_cons] at hnd
      by_cases hp : a.status = MsgStatus.PENDING
      · rw [findFirstPending, if_pos hp] at h
        injection h with h
        subst h
        unfold updateMessageById replaceFirstPending
        rw [if_pos hp, List.map_cons, if_pos rfl,
          map_update_eq_self a.mid f l
            (fun x hx hxm => hnd.1 (hxm ▸ List.mem_map_of_mem OutboundMessage.mid hx))]
      · rw [findFirstPending, if_neg hp] at h
        have hmem := (findFirstPending_mem h).1
        have hne : a.mid ≠ m.mid := fun he =>
          hnd.1 (he ▸ List.mem_map_of_mem OutboundMessage.mid hmem)
        unfold updateMessageById replaceFirstPending
        rw [if_neg hp, List.map_cons, if_neg hne]
        exact congrArg (a :: ·) (ih hnd.2 h)

theorem pendingCount_replaceFirstPending (f : OutboundMessage → OutboundMessage)
    (hf : ∀ x, (f x).status ≠ MsgStatus.PENDING) {msgs : List OutboundMessage}
    {m : OutboundMessage} (h : findFirstPending msgs = some m) :
    pendingCount msgs = pendingCount (replaceFirstPending f msgs) + 1 := by
  induction msgs with
  | nil => simp [findFirstPending] at h
  | cons a l ih =>
      by_cases hp : a.status = MsgStatus.PENDING
      · unfold replaceFirstPending pendingCount
        rw [if_pos hp, List.filter_cons, List.filter_cons,
          if_pos (by simp [hp]), if_neg (by simp [hf a])]
        simp [Nat.add_comm]
      · rw [findFirstPending, if_neg hp] at h
        unfold replaceFirstPending pendingCount
        rw [if_neg hp, List.filter_cons, List.filter_cons,
          if_neg (by simp [hp]), if_neg (by simp [hp])]
        exact ih h

theorem length_replaceFirstPending (f : OutboundMessage → OutboundMessage)
    (msgs : List OutboundMessage) :
    (replaceFirstPending f msgs).length = msgs.length := by
  induction msgs with
  | nil => rfl
  | cons a l ih =>
      by_cases hp : a.status = MsgStatus.PENDING
      · simp [replaceFirstPending, hp]
      · simp [replaceFirstPending, hp, ih]

theorem map_mid_replaceFirstPending (f : OutboundMessage → OutboundMessage)
    (hf : ∀ x, (f x).mid = x.mid) (msgs : List OutboundMessage) :
    (replaceFirstPending f msgs).map OutboundMessage.mid
      = msgs.map OutboundMessage.mid := by
  induction msgs with
  | nil => rfl
  | cons a l ih =>
      by_cases hp : a.status = MsgStatus.PENDING
      · simp [replaceFirstPending, hp, hf a]
      · simp [replaceFirstPending, hp, ih]

theorem waMessageId_replaceFirstPending (f : OutboundMessage → OutboundMessage)
    (hf : ∀ x, (f x).waMessageId = x.waMessageId) {msgs : List OutboundMessage}
    (hall : ∀ x ∈ msgs, x.waMessageId = none) :
    ∀ x ∈ replaceFirstPending f msgs, x.waMessageId = none := by
  induction msgs with
  | nil => simp [replaceFirstPending]
  | cons a l ih =>
      by_cases hp : a.status = MsgStatus.PENDING
      · intro x hx
        rw [replaceFirstPending, if_pos hp] at hx
        rcases List.mem_cons.mp hx with hxa | hxl
        · rw [hxa, hf a]
          exact hall a (List.mem_cons_self a l)
        · exact hall x (List.mem_cons_of_mem a hxl)
      · intro x hx
        rw [replaceFirstPending, if_neg hp] at hx
        rcases List.mem_cons.mp hx with hxa | hxl
        · rw [hxa]
          exact hall a (List.mem_cons_self a l)
        · exact ih (fun y hy => hall y (List.mem_cons_of_mem a hy)) x hxl

theorem list_map_self {α : Type} (f : α → α) (l : List α) (h : ∀ x ∈ l, f x = x) :
    l.map f = l := by
  induction l with
  | nil => rfl
  | cons a t ih =>
      simp only [List.map_cons]
      rw [h a (List.mem_cons_self a t), ih fun x hx => h x (List.mem_cons_of_mem a hx)]

theorem ackUpdate_eq_self (st : DispatchState) (waId : String) (newStatus : MsgStatus)
    (h : ∀ x ∈ st.messages, x.waMessageId = none) :
    ackUpdate st waId newStatus = st := by
  unfold ackUpdate
  rw [list_map_self _ _ fun x hx => by rw [h x hx]; rfl]

/-! ### The campaign bookkeeping invariant -/

/-- Bookkeeping facts that hold for every reachable campaign state:
the total matches the number of created rows, the counters account exactly
for the rows that have left PENDING, campaign rows never carry a provider
message id (the dispatcher never stores one), row ids are unique, and a
COMPLETED campaign has no PENDING row left. -/
def CInv (st : DispatchState) : Prop :=
  st.campaign.totalMessages = st.messages.length ∧
  st.campaign.sentMessages + st.campaign.failedMessages + pendingCount st.messages
      = st.campaign.totalMessages ∧
  (∀ m ∈ st.messages, m.waMessageId = none) ∧
  (st.messages.map OutboundMessage.mid).Nodup ∧
  (st.campaign.status = CampaignStatus.COMPLETED → pendingCount st.messages = 0)

theorem pendingCount_eq_length_of_all {msgs : List OutboundMessage}
    (h : ∀ m ∈ msgs, m.status = MsgStatus.PENDING) :
    pendingCount msgs = msgs.length := by
  unfold pendingCount
  induction msgs with
  | nil => rfl
  | cons a l ih =>
      rw [List.filter_cons, if_pos (by simp [h a (List.mem_cons_self a l)])]
      simp only [List.length_cons]
      rw [ih fun m hm => h m (List.mem_cons_of_mem a hm)]

theorem cinv_created (inp : SimpleCampaignInput) (w : Option String) (t : Nat) :
    CInv (createSimpleCampaign inp w t) := by
  have hlen : (createSimpleCampaign inp w t).messages.length = inp.recipients.length := by
    simp [createSimpleCampaign]
  have hall : ∀ m ∈ (createSimpleCampaign inp w t).messages,
      m.status = MsgStatus.PENDING ∧ m.waMessageId = none := by
    intro m hm
    simp only [createSimpleCampaign, List.mem_map] at hm
    obtain ⟨p, _, hp⟩ := hm
    rw [← hp]
    exact ⟨rfl, rfl⟩
  refine ⟨?_, ?_, fun m hm => (hall m hm).2, ?_, ?_⟩
  · rw [hlen]
    simp [createSimpleCampaign]
  · rw [pendingCount_eq_length_of_all fun m hm => (hall m hm).1, hlen]
    simp [createSimpleCampaign]
  · show ((((List.range inp.recipients.length).zip inp.recipients).map _).map
      OutboundMessage.mid).Nodup
    rw [List.map_map]
    have : (OutboundMessage.mid ∘ fun p : Nat × String =>
        ({ mid := p.1, toNumber := p.2, msgFrom := jsStringOr w "unknown",
           body := jsStringOr inp.messageText (jsStringOr inp.messageCaption ""),
           mediaUrl := inp.messageMediaUrl,
           mediaType := if inp.messageType = "media" then "image" else "text",
           status := MsgStatus.PENDING, errorMsg := none, waMessageId := none,
           sentAt := none, createdAt := t } : OutboundMessage)) = Prod.fst := rfl
    rw [this, List.map_fst_zip _ _ (by simp)]
    exact List.nodup_range _
  · intro hc
    exact absurd hc (by simp [createSimpleCampaign])

theorem control_ok_newStatus {a : ControlAction} {s : CampaignStatus} {r : ControlOutcome}
    (h : controlCampaign a s = Except.ok r) :
    r.newStatus ≠ CampaignStatus.COMPLETED := by
  cases a <;> cases s <;> simp_all [controlCampaign] <;> simp [← h]

theorem cinv_step {s s' : DispatchState} (hinv : CInv s) (hs : Step s s') : CInv s' := by
  obtain ⟨h1, h2, h3, h4, h5⟩ := hinv
  cases hs with
  | control a r hctl =>
      exact ⟨h1, h2, h3, h4, fun hc => absurd hc (control_ok_newStatus hctl)⟩
  | start iStat r now hst =>
      exact ⟨h1, h2, h3, h4, fun hc => by simp [applyStart] at hc⟩
  | ack waId newStatus =>
      rw [ackUpdate_eq_self s waId newStatus h3]
      exact ⟨h1, h2, h3, h4, h5⟩
  | iter iStat oc now =>
      by_cases hrun : s.campaign.status = CampaignStatus.RUNNING
      · by_cases hconn : iStat = InstanceStatus.connected
        · cases hfp : findFirstPending s.messages with
          | none =>
              rw [processIteration_completed s iStat oc now hrun hconn hfp]
              exact ⟨h1, h2, h3, h4,
                fun _ => (findFirstPending_eq_none_iff s.messages).mp hfp⟩
          | some m =>
              cases oc with
              | success =>
                  rw [processIteration_send_success s iStat now m hrun hconn hfp]
                  rw [updateMessageById_eq_replaceFirstPending _ h4 hfp]
                  have hpc := pendingCount_replaceFirstPending
                    (fun x => { x with status := MsgStatus.SENT, sentAt := some now })
                    (fun x => by simp) hfp
                  refine ⟨?_, ?_, ?_, ?_, ?_⟩
                  · rw [length_replaceFirstPending]
                    exact h1
                  · simp only []
                    omega
                  · exact waMessageId_replaceFirstPending
                      (fun x => { x with status := MsgStatus.SENT, sentAt := some now })
                      (fun x => rfl) h3
                  · rw [map_mid_replaceFirstPending
                      (fun x => { x with status := MsgStatus.SENT, sentAt := some now })
                      (fun x => rfl)]
                    exact h4
                  · intro hc
                    rw [show ({ s.campaign with
                        sentMessages := s.campaign.sentMessages + 1 } : Campaign).status
                        = s.campaign.status from rfl, hrun] at hc
                    exact absurd hc (by simp)
              | failure err =>
                  rw [processIteration_send_failure s iStat now err m hrun hconn hfp]
                  rw [updateMessageById_eq_replaceFirstPending _ h4 hfp]
                  have hpc := pendingCount_replaceFirstPending
                    (fun x => { x with status := MsgStatus.FAILED, errorMsg := some err })
                    (fun x => by simp) hfp
                  refine ⟨?_, ?_, ?_, ?_, ?_⟩
                  · rw [length_replaceFirstPending]
                    exact h1
                  · simp only []
                    omega
                  · exact waMessageId_replaceFirstPending
                      (fun x => { x with status := MsgStatus.FAILED, errorMsg := some err })
                      (fun x => rfl) h3
                  · rw [map_mid_replaceFirstPending
                      (fun x => { x with status := MsgStatus.FAILED, errorMsg := some err })
                      (fun x => rfl)]
                    exact h4
                  · intro hc
                    rw [show ({ s.campaign with
                        failedMessages := s.campaign.failedMessages + 1 } : Campaign).status
                        = s.campaign.status from rfl, hrun] at hc
                    exact absurd hc (by simp)
        · rw [processIteration_disconnected s iStat oc now hrun hconn]
          exact ⟨h1, h2, h3, h4, fun hc => absurd hc (by simp)⟩
      · rw [processIteration_not_running s iStat oc now hrun]
        exact ⟨h1, h2, h3, h4, h5⟩

theorem cinv_reachable {s : DispatchState} (h : CReachable s) : CInv s := by
  induction h with
  | created inp w t => exact cinv_created inp w t
  | step _ hstep ih => exact cinv_step ih hstep

/-! ### The per-campaign re-entry guard of `processCampaign` -/

/-- The process-local state of the dispatcher module:
`runningProcessors` is the `Set<string>` guarding re-entry, and
`activeLoops cid` counts the live `processCampaign(cid)` invocations that
passed the guard and have not yet run their `finally` block. -/
structure ProcessorState where
  runningProcessors : Finset String
  activeLoops : String → Nat

/-- The synchronous prefix of `processCampaign`: the guard check and the
`add` run with no await in between, so they are one atomic step.  A call for
an id already in the set returns at once — the `Bool` records whether the
invocation proceeded into the loop (and hence whether any send can happen). -/
def enterProcessor (s : ProcessorState) (campaignId : String) : ProcessorState × Bool :=
  if campaignId ∈ s.runningProcessors then (s, false)
  else
    ({ runningProcessors := insert campaignId s.runningProcessors,
       activeLoops := fun x =>
         if x = campaignId then s.activeLoops x + 1 else s.activeLoops x },
      true)

/-- The `finally { runningProcessors.delete(campaignId) }` block, run exactly
once by each invocation that passed the guard, when its loop exits. -/
def exitProcessor (s : ProcessorState) (campaignId : String) : ProcessorState :=
  { runningProcessors := s.runningProcessors.erase campaignId,
    activeLoops := fun x =>
      if x = campaignId then s.activeLoops x - 1 else s.activeLoops x }

/-- Histories of the module state: it starts empty, invocations enter through
the guard, and only a live invocation (one that entered and has not exited)
runs the `finally` block. -/
inductive PReachable : ProcessorState → Prop
  | init : PReachable ⟨∅, fun _ => 0⟩
  | enter (s : ProcessorState) (cid : String) :
      PReachable s → PReachable (enterProcessor s cid).1
  | exit (s : ProcessorState) (cid : String) :
      PReachable s → s.activeLoops cid = 1 → PReachable (exitProcessor s cid)

/-- The guard invariant: an id has a live loop exactly while it is in the set. -/
def PInv (s : ProcessorState) : Prop :=
  ∀ cid, s.activeLoops cid = if cid ∈ s.runningProcessors then 1 else 0

theorem preachable_inv {s : ProcessorState} (h : PReachable s) : PInv s := by
  induction h with
  | init =>
      intro cid
      simp
  | enter s cid _ ih =>
      intro c
      by_cases hm : cid ∈ s.runningProcessors
      · simp only [enterProcessor, if_pos hm]
        exact ih c
      · simp only [enterProcessor, if_neg hm]
        by_cases hc : c = cid
        · subst hc
          simp [ih c, hm]
        · simp [hc, Finset.mem_insert, ih c]
  | exit s cid _ hone ih =>
      intro c
      by_cases hc : c = cid
      · subst hc
        simp [exitProcessor, Finset.mem_erase, hone]
      · simp [exitProcessor, hc, Finset.mem_erase, ih c]

/-! ### The outbound webhook relay retry loop -/

/-- Observable behavior of one run of the retry loop: how many delivery
attempts (`sendWebhook` calls) it made, the milliseconds slept between
consecutive attempts (in order), and whether it ended on a success. -/
structure RetryTrace where
  attempts : Nat
  sleeps : List Nat
  delivered : Bool
  deriving DecidableEq, Repr

/-- The `for (attempt = 1; attempt <= max; attempt++)` body of
`sendWebhookWithRetry`, recursing on the number of remaining allowed
attempts.  `outcome k = true` means the k-th `sendWebhook` call returned a
2xx response; `false` covers both a non-2xx response and a thrown
network/timeout error (both make `sendWebhook` resolve to `false`).
A failed attempt with attempts left sleeps `1000 * 2 ^ (attempt - 1)` ms;
the final attempt is never followed by a sleep. -/
def retryGo (outcome : Nat → Bool) (attempt : Nat) : Nat → RetryTrace
  | 0 => { attempts := 0, sleeps := [], delivered := false }
  | remaining + 1 =>
      if outcome attempt then { attempts := 1, sleeps := [], delivered := true }
      else if remaining = 0 then { attempts := 1, sleeps := [], delivered := false }
      else
        { attempts := (retryGo outcome (attempt + 1) remaining).attempts + 1
          sleeps := 1000 * 2 ^ (attempt - 1) ::
            (retryGo outcome (attempt + 1) remaining).sleeps
          delivered := (retryGo outcome (attempt + 1) remaining).delivered }

/-- `sendWebhookWithRetry(url, payload)`: attempts run from 1 up to
`env.webhookRetryAttempts`. -/
def sendWebhookWithRetry (webhookRetryAttempts : Nat) (outcome : Nat → Bool) :
    RetryTrace :=
  retryGo outcome 1 webhookRetryAttempts

theorem retryGo_attempts_le (outcome : Nat → Bool) (a r : Nat) :
    (retryGo outcome a r).attempts ≤ r := by
  induction r generalizing a with
  | zero => simp [retryGo]
  | succ n ih =>
      unfold retryGo
      by_cases h1 : outcome a
      · simp [h1]
      · by_cases h2 : n = 0
        · simp [h1, h2]
        · simp only [if_neg h1, if_neg h2]
          have := ih (a + 1)
          omega

theorem retryGo_attempts_pos (outcome : Nat → Bool) (a r : Nat) (h : 1 ≤ r) :
    1 ≤ (retryGo outcome a r).attempts := by
  cases r with
  | zero => omega
  | succ n =>
      unfold retryGo
      by_cases h1 : outcome a
      · simp [h1]
      · by_cases h2 : n = 0
        · simp [h1, h2]
        · simp only [if_neg h1, if_neg h2]
          simp

theorem retryGo_not_delivered (outcome : Nat → Bool) (a r : Nat)
    (h : (retryGo outcome a r).delivered = false) :
    (retryGo outcome a r).attempts = r ∧
      ∀ k, a ≤ k → k < a + r → outcome k = false := by
  induction r generalizing a with
  | zero => exact ⟨by simp [retryGo], fun k hk1 hk2 => by omega⟩
  | succ n ih =>
      unfold retryGo at h ⊢
      by_cases h1 : outcome a
      · simp [h1] at h
      · by_cases h2 : n = 0
        · subst h2
          refine ⟨by simp [h1], fun k hk1 hk2 => ?_⟩
          have : k = a := by omega
          rw [this]
          simp [h1]
        · simp only [if_neg h1, if_neg h2] at h ⊢
          obtain ⟨ha, hall⟩ := ih (a + 1) h
          refine ⟨by simp [ha], fun k hk1 hk2 => ?_⟩
          by_cases hk : k = a
          · rw [hk]
            simp [h1]
          · exact hall k (by omega) (by omega)

theorem retryGo_delivered_last (outcome : Nat → Bool) (a r : Nat)
    (h : (retryGo outcome a r).delivered = true) :
    outcome (a + ((retryGo outcome a r).attempts - 1)) = true := by
  induction r generalizing a with
  | zero => simp [retryGo] at h
  | succ n ih =>
      unfold retryGo at h ⊢
      by_cases h1 : outcome a
      · simp [h1]
      · by_cases h2 : n = 0
        · simp [h1, h2] at h
        · simp only [if_neg h1, if_neg h2] at h ⊢
          have hpos : 1 ≤ (retryGo outcome (a + 1) n).attempts :=
            retryGo_attempts_pos outcome (a + 1) n (by omega)
          have := ih (a + 1) h
          have harith : a + ((retryGo outcome (a + 1) n).attempts + 1 - 1)
              = (a + 1) + ((retryGo outcome (a + 1) n).attempts - 1) := by omega
          rw [harith]
          exact this

theorem retryGo_before_last_false (outcome : Nat → Bool) (a r : Nat) :
    ∀ k, a ≤ k → k + 1 < a + (retryGo outcome a r).attempts → outcome k = false := by
  induction r generalizing a with
  | zero =>
      intro k hk1 hk2
      simp [retryGo] at hk2
      omega
  | succ n ih =>
      intro k hk1 hk2
      unfold retryGo at hk2
      by_cases h1 : outcome a
      · simp [h1] at hk2
        omega
      · by_cases h2 : n = 0
        · simp [h1, h2] at hk2
          omega
        · simp only [if_neg h1, if_neg h2] at hk2
          by_cases hk : k = a
          · rw [hk]
            simp [h1]
          · exact ih (a + 1) k (by omega) (by omega)

theorem retryGo_sleeps (outcome : Nat → Bool) (a r : Nat) :
    (retryGo outcome a r).sleeps
      = (List.range' a ((retryGo outcome a r).attempts - 1)).map
          fun k => 1000 * 2 ^ (k - 1) := by
  induction r generalizing a with
  | zero => simp [retryGo]
  | succ n ih =>
      unfold retryGo
      by_cases h1 : outcome a
      · simp [h1]
      · by_cases h2 : n = 0
        · simp [h1, h2]
        · simp only [if_neg h1, if_neg h2]
          have hpos : 1 ≤ (retryGo outcome (a + 1) n).attempts :=
            retryGo_attempts_pos outcome (a + 1) n (by omega)
          obtain ⟨p, hp⟩ : ∃ p, (retryGo outcome (a + 1) n).attempts = p + 1 :=
            ⟨(retryGo outcome (a + 1) n).attempts - 1, by omega⟩
          simp only [hp, Nat.add_sub_cancel]
          rw [List.range'_succ]
          simp only [List.map_cons]
          have := ih (a + 1)
          rw [hp] at this
          simp only [Nat.add_sub_cancel] at this
          rw [this]

/-! ### The gateway client session map and `getStatus` -/

/-- One cached credential session of `OfficialWhatsAppManager`
(`phoneNumberId`, `accessToken`, `businessAccountId`). -/
structure OfficialInstanceSession where
  phoneNumberId : String
  accessToken : String
  businessAccountId : String
  deriving DecidableEq, Repr

/-- The in-memory `Map<string, OfficialInstanceSession>` keyed by instance id. -/
def SessionMap : Type := List (String × OfficialInstanceSession)

/-- `this.sessions.has(instanceId)`. -/
def sessionHas (sessions : SessionMap) (instanceId : String) : Bool :=
  (List.find? (fun p => p.1 == instanceId) sessions).isSome

/-- `OfficialWhatsAppManager.getStatus`:
`this.sessions.has(instanceId) ? 'connected' : 'disconnected'`. -/
def getStatus (sessions : SessionMap) (instanceId : String) : InstanceStatus :=
  if sessionHas sessions instanceId then InstanceStatus.connected
  else InstanceStatus.disconnected

/-! ### Inbound webhook ingestion (`POST /webhook`) -/

/-- The instance columns consulted by the ingest handler
(`prisma.instance.findFirst({ where: { waPhoneNumberId } })`). -/
structure WInstance where
  id : String
  waPhoneNumberId : Option String
  deriving DecidableEq, Repr

/-- One element of `value.contacts`: `wa_id` plus `profile?.name`
(flattened; `profileName = none` covers both a missing `profile` object and a
missing `name`). -/
structure ProviderContactEntry where
  waId : String
  profileName : Option String
  deriving DecidableEq, Repr

/-- One element of `value.messages`.  The fields `from` and `type` are
spelled `msgFrom` and `msgType`; per-type content fields mirror
`message.text?.body`, `message.image?.caption`, `message.image?.id`, … with
`none` standing for `undefined`. -/
structure ProviderMessage where
  id : String
  msgFrom : String
  msgType : String
  textBody : Option String
  imageCaption : Option String
  imageId : Option String
  videoCaption : Option String
  videoId : Option String
  audioId : Option String
  documentCaption : Option String
  documentId : Option String
  timestamp : Nat
  deriving DecidableEq, Repr

/-- One element of `value.statuses`: `status.id` and `status.status`
(either may be absent in a structurally valid JSON payload). -/
structure ProviderStatus where
  statusId : Option String
  statusField : Option String
  deriving DecidableEq, Repr

/-- `value.metadata`. -/
structure WMetadata where
  phoneNumberId : Option String
  displayPhoneNumber : String
  deriving DecidableEq, Repr

/-- `change.value`. -/
structure ChangeValue where
  metadata : Option WMetadata
  messages : Option (List ProviderMessage)
  statuses : Option (List ProviderStatus)
  contacts : Option (List ProviderContactEntry)
  deriving DecidableEq, Repr

/-- One element of `entry.changes`. -/
structure WebhookChange where
  value : ChangeValue
  deriving DecidableEq, Repr

/-- One element of `body.entry`. -/
structure WebhookEntry where
  changes : Option (List WebhookChange)
  deriving DecidableEq, Repr

/-- The parsed request body of `POST /webhook`. -/
structure WebhookBody where
  object : String
  entry : Option (List WebhookEntry)
  deriving DecidableEq, Repr

/-- A `Contact` row. -/
structure WContact where
  cid : Nat
  instanceId : String
  waId : String
  pushName : String
  deriving DecidableEq, Repr

/-- A `Message` row as written by the ingest handler. -/
structure WMessageRow where
  instanceId : String
  contactId : Nat
  waMessageId : String
  msgFrom : String
  msgTo : String
  direction : String
  body : Option String
  mediaUrl : Option String
  mediaType : String
  status : String
  sentAt : Nat
  deriving DecidableEq, Repr

/-- The slice of the store the ingest handler reads and writes:
contact rows, message rows, and the next fresh contact row id. -/
structure WebhookDB where
  contacts : List WContact
  rows : List WMessageRow
  nextContactId : Nat
  deriving DecidableEq, Repr

/-- One `dispatchWebhook(instanceId, event, data)` call made by the handler;
`refId` is the provider id carried in the data (`message.id`, or `status.id`
for an acknowledgement). -/
structure EmittedEvent where
  instanceId : String
  eventName : String
  refId : String
  deriving DecidableEq, Repr

/-- `prisma.instance.findFirst({ where: { waPhoneNumberId: pid } })`. -/
def findInstanceByPhone (instances : List WInstance) (pid : String) :
    Option WInstance :=
  instances.find? fun i => i.waPhoneNumberId == some pid

/-- The truthiness test JavaScript applies to an optional string
(`undefined` and `""` are falsy). -/
def truthyStr : Option String → Bool
  | some s => !(s == "")
  | none => false

/-- The contact upsert of the message branch: look up by
`(instanceId, waId)`; create with `pushName: pushName || from` when absent;
update the name when a truthy provider name differs from the stored one.
Returns the store and the contact row id used for the message. -/
def upsertContact (db : WebhookDB) (instanceId msgFrom : String)
    (pushName : Option String) : WebhookDB × Nat :=
  match db.contacts.find? fun c => c.instanceId == instanceId && c.waId == msgFrom with
  | none =>
      ({ db with
          contacts := db.contacts ++
            [{ cid := db.nextContactId, instanceId := instanceId, waId := msgFrom,
               pushName := jsStringOr pushName msgFrom }],
          nextContactId := db.nextContactId + 1 },
        db.nextContactId)
  | some c =>
      match pushName with
      | some pn =>
          if pn ≠ "" ∧ c.pushName ≠ pn then
            ({ db with contacts := db.contacts.map fun x =>
                if x.cid = c.cid then { x with pushName := pn } else x },
              c.cid)
          else (db, c.cid)
      | none => (db, c.cid)

/-- The `bodyText` / `mediaUrl` extraction chain of the message branch:
both variables start as `''` and are reassigned (possibly to `undefined`)
according to `message.type`. -/
def extractContent (m : ProviderMessage) : Option String × Option String :=
  if m.msgType = "text" then (m.textBody, some "")
  else if m.msgType = "image" then (m.imageCaption, m.imageId)
  else if m.msgType = "video" then (m.videoCaption, m.videoId)
  else if m.msgType = "audio" then (some "", m.audioId)
  else if m.msgType = "document" then (m.documentCaption, m.documentId)
  else (some "", some "")

/-- Processing of one element of `value.messages`: resolve the instance by
`metadata.phone_number_id` (dropping the item if either is missing or no
instance matches), upsert the contact, persist the message only when no row
with the same `waMessageId` exists (the deduplication check), and finally —
outside the deduplication guard — `dispatchWebhook(instance.id, 'message', …)`. -/
def processMessageItem (instances : List WInstance) (v : ChangeValue)
    (s : WebhookDB × List EmittedEvent) (m : ProviderMessage) :
    WebhookDB × List EmittedEvent :=
  match v.metadata with
  | none => s
  | some md =>
      match md.phoneNumberId with
      | none => s
      | some pid =>
          match findInstanceByPhone instances pid with
          | none => s
          | some inst =>
              let pushName :=
                ((v.contacts.getD []).find? fun c => c.waId == m.msgFrom).bind
                  ProviderContactEntry.profileName
              let up := upsertContact s.1 inst.id m.msgFrom pushName
              let content := extractContent m
              let db2 :=
                if up.1.rows.any fun r => r.waMessageId == m.id then up.1
                else
                  { up.1 with rows := up.1.rows ++
                      [{ instanceId := inst.id
                         contactId := up.2
                         waMessageId := m.id
                         msgFrom := m.msgFrom
                         msgTo := md.displayPhoneNumber
                         direction := "INBOUND"
                         body := content.1
                         mediaUrl := content.2
                         mediaType := m.msgType
                         status := "DELIVERED"
                         sentAt := m.timestamp * 1000 }] }
              (db2, s.2 ++ [{ instanceId := inst.id, eventName := "message",
                              refId := m.id }])

/-- Processing of one element of `value.statuses`: with a resolved instance
and a truthy `status.id`, run the `updateMany` on rows with that
`waMessageId` — whose `data` object evaluates `status.status.toUpperCase()`
and therefore throws a `TypeError` when `status.status` is absent — then
dispatch a `message_ack` event.  The `Option String` component is the thrown
error, `none` when the item completed. -/
def processStatusItem (instances : List WInstance) (v : ChangeValue)
    (s : WebhookDB × List EmittedEvent) (st : ProviderStatus) :
    (WebhookDB × List EmittedEvent) × Option String :=
  match v.metadata with
  | none => (s, none)
  | some md =>
      match md.phoneNumberId with
      | none => (s, none)
      | some pid =>
          match findInstanceByPhone instances pid with
          | none => (s, none)
          | some inst =>
              match st.statusId with
              | some sid =>
                  match st.statusField with
                  | none => (s, some "TypeError: status.status is undefined")
                  | some sv =>
                      (({ s.1 with rows := s.1.rows.map fun r =>
                            if r.waMessageId == sid then
                              { r with status := sv.toUpper }
                            else r },
                         s.2 ++ [{ instanceId := inst.id, eventName := "message_ack",
                                   refId := sid }]),
                        none)
              | none =>
                  ((s.1, s.2 ++ [{ instanceId := inst.id, eventName := "message_ack",
                                   refId := "" }]),
                    none)

/-- The `for (const status of value.statuses)` loop: an exception thrown by
one item propagates, abandoning the remaining items. -/
def processStatuses (instances : List WInstance) (v : ChangeValue) :
    WebhookDB × List EmittedEvent → List ProviderStatus →
      (WebhookDB × List EmittedEvent) × Option String
  | s, [] => (s, none)
  | s, st :: rest =>
      match processStatusItem instances v s st with
      | (s2, none) => processStatuses instances v s2 rest
      | (s2, some e) => (s2, some e)

/-- One element of `entry.changes`: the messages loop (which cannot throw on
a structurally valid payload) followed by the statuses loop. -/
def processChange (instances : List WInstance)
    (s : WebhookDB × List EmittedEvent) (ch : WebhookChange) :
    (WebhookDB × List EmittedEvent) × Option String :=
  let s1 :=
    match ch.value.messages with
    | some msgs => msgs.foldl (processMessageItem instances ch.value) s
    | none => s
  match ch.value.statuses with
  | some sts => processStatuses instances ch.value s1 sts
  | none => (s1, none)

/-- The `for (const change of entry.changes || [])` loop. -/
def processChanges (instances : List WInstance) :
    WebhookDB × List EmittedEvent → List WebhookChange →
      (WebhookDB × List EmittedEvent) × Option String
  | s, [] => (s, none)
  | s, ch :: rest =>
      match processChange instances s ch with
      | (s2, none) => processChanges instances s2 rest
      | (s2, some e) => (s2, some e)

/-- The `for (const entry of body.entry || [])` loop. -/
def processEntries (instances : List WInstance) :
    WebhookDB × List EmittedEvent → List WebhookEntry →
      (WebhookDB × List EmittedEvent) × Option String
  | s, [] => (s, none)
  | s, e :: rest =>
      match processChanges instances s (e.changes.getD []) with
      | (s2, none) => processEntries instances s2 rest
      | (s2, some er) => (s2, some er)

/-- The HTTP response of the ingest handler. -/
inductive IngestResponse
  | okAck
  | serverError
  deriving DecidableEq, Repr

/-- The whole `webhooks.post('/')` handler: `body = none` models a request
whose JSON parse threw (the `c.req.json()` call), which the surrounding
`catch` turns into a 500; otherwise entries are processed inside the single
try/catch, so the first exception anywhere aborts the rest of the batch and
yields a 500, keeping the store writes already made; when nothing throws the
handler acknowledges with `{ status: 'ok' }`. -/
def webhookPost (instances : List WInstance) (db : WebhookDB)
    (body : Option WebhookBody) : WebhookDB × List EmittedEvent × IngestResponse :=
  match body with
  | none => (db, [], IngestResponse.serverError)
  | some b =>
      if b.object = "whatsapp_business_account" then
        match processEntries instances (db, []) (b.entry.getD []) with
        | ((db2, evs), none) => (db2, evs, IngestResponse.okAck)
        | ((db2, evs), some _) => (db2, evs, IngestResponse.serverError)
      else (db, [], IngestResponse.okAck)

/-! ### Lemmas about the ingestion model -/

theorem upsertContact_rows (db : WebhookDB) (instanceId msgFrom : String)
    (pushName : Option String) :
    (upsertContact db instanceId msgFrom pushName).1.rows = db.rows := by
  unfold upsertContact
  split
  · rfl
  · split
    · split
      · rfl
      · rfl
    · rfl

theorem processStatusItem_no_throw (instances : List WInstance) (v : ChangeValue)
    (s : WebhookDB × List EmittedEvent) (st : ProviderStatus)
    (h : st.statusId.isSome → st.statusField.isSome) :
    (processStatusItem instances v s st).2 = none := by
  rcases hmd : v.metadata with _ | md
  · simp [processStatusItem, hmd]
  rcases hpid : md.phoneNumberId with _ | pid
  · simp [processStatusItem, hmd, hpid]
  rcases hfi : findInstanceByPhone instances pid with _ | inst
  · simp [processStatusItem, hmd, hpid, hfi]
  rcases hsid : st.statusId with _ | sid
  · simp [processStatusItem, hmd, hpid, hfi, hsid]
  rcases hsf : st.statusField with _ | sv
  · exact absurd (h (by simp [hsid])) (by simp [hsf])
  · simp [processStatusItem, hmd, hpid, hfi, hsid, hsf]

theorem processStatuses_no_throw (instances : List WInstance) (v : ChangeValue)
    (sts : List ProviderStatus) :
    ∀ s : WebhookDB × List EmittedEvent,
      (∀ st ∈ sts, st.statusId.isSome → st.statusField.isSome) →
      (processStatuses instances v s sts).2 = none := by
  induction sts with
  | nil =>
      intro s _
      rfl
  | cons st rest ih =>
      intro s h
      unfold processStatuses
      have hst := processStatusItem_no_throw instances v s st
        (h st (List.mem_cons_self st rest))
      cases hpi : processStatusItem instances v s st with
      | mk s2 e =>
          rw [hpi] at hst
          cases e with
          | none => exact ih s2 fun x hx => h x (List.mem_cons_of_mem st hx)
          | some er => simp at hst

theorem processChange_no_throw (instances : List WInstance)
    (s : WebhookDB × List EmittedEvent) (ch : WebhookChange)
    (h : ∀ st ∈ ch.value.statuses.getD [],
      st.statusId.isSome → st.statusField.isSome) :
    (processChange instances s ch).2 = none := by
  unfold processChange
  cases hst : ch.value.statuses with
  | none => rfl
  | some sts =>
      rw [hst] at h
      exact processStatuses_no_throw instances ch.value sts _ (by simpa using h)

theorem processChanges_no_throw (instances : List WInstance)
    (chs : List WebhookChange) :
    ∀ s : WebhookDB × List EmittedEvent,
      (∀ ch ∈ chs, ∀ st ∈ ch.value.statuses.getD [],
        st.statusId.isSome → st.statusField.isSome) →
      (processChanges instances s chs).2 = none := by
  induction chs with
  | nil =>
      intro s _
      rfl
  | cons ch rest ih =>
      intro s h
      unfold processChanges
      have hch := processChange_no_throw instances s ch
        (h ch (List.mem_cons_self ch rest))
      cases hpc : processChange instances s ch with
      | mk s2 e =>
          rw [hpc] at hch
          cases e with
          | none => exact ih s2 fun x hx => h x (List.mem_cons_of_mem ch hx)
          | some er => simp at hch

theorem processEntries_no_throw (instances : List WInstance)
    (entries : List WebhookEntry) :
    ∀ s : WebhookDB × List EmittedEvent,
      (∀ e ∈ entries, ∀ ch ∈ e.changes.getD [],
        ∀ st ∈ ch.value.statuses.getD [],
        st.statusId.isSome → st.statusField.isSome) →
      (processEntries instances s entries).2 = none := by
  induction entries with
  | nil =>
      intro s _
      rfl
  | cons e rest ih =>
      intro s h
      unfold processEntries
      have hch := processChanges_no_throw instances (e.changes.getD []) s
        (h e (List.mem_cons_self e rest))
      cases hpc : processChanges instances s (e.changes.getD []) with
      | mk s2 er =>
          rw [hpc] at hch
          cases er with
          | none => exact ih s2 fun x hx => h x (List.mem_cons_of_mem e hx)
          | some er2 => simp at hch

/-! ### Sample inputs for the ingestion and dispatcher scenarios -/

/-- Sample instance whose provider phone-number id is "555". -/
def inst0 : WInstance := { id := "inst-1", waPhoneNumberId := some "555" }

/-- Sample inbound text message. -/
def msg0 : ProviderMessage :=
  { id := "wamid.1", msgFrom := "777", msgType := "text", textBody := some "hello",
    imageCaption := none, imageId := none, videoCaption := none, videoId := none,
    audioId := none, documentCaption := none, documentId := none, timestamp := 1 }

/-- Sample `change.value` carrying `msg0` for instance `inst0`. -/
def value0 : ChangeValue :=
  { metadata := some { phoneNumberId := some "555", displayPhoneNumber := "15550001111" },
    messages := some [msg0], statuses := none, contacts := none }

/-- An empty store. -/
def emptyDB : WebhookDB := { contacts := [], rows := [], nextContactId := 0 }

/-- A status update carrying an id but no `status` field: evaluating
`status.status.toUpperCase()` on it throws. -/
def statusNoField : ProviderStatus := { statusId := some "wamid.X", statusField := none }

/-- A `change.value` whose only item throws while being processed. -/
def valueThrowing : ChangeValue :=
  { metadata := some { phoneNumberId := some "555", displayPhoneNumber := "15550001111" },
    messages := none, statuses := some [statusNoField], contacts := none }

/-- Entry whose only item throws while being processed. -/
def entryThrowing : WebhookEntry := { changes := some [{ value := valueThrowing }] }

/-- Sibling entry carrying a fresh inbound message. -/
def entrySibling : WebhookEntry := { changes := some [{ value := value0 }] }

/-- A batch where the first entry throws and the second holds a new message. -/
def body0 : WebhookBody :=
  { object := "whatsapp_business_account", entry := some [entryThrowing, entrySibling] }

/-! ### Claim theorems -/

theorem step_counters_monotone {s s2 : DispatchState} (hs : Step s s2) :
    s.campaign.sentMessages ≤ s2.campaign.sentMessages ∧
    s.campaign.failedMessages ≤ s2.campaign.failedMessages ∧
    s2.campaign.totalMessages = s.campaign.totalMessages := by
  cases hs with
  | control a r hctl => exact ⟨le_refl _, le_refl _, rfl⟩
  | start iStat r now hst => exact ⟨le_refl _, le_refl _, rfl⟩
  | ack waId newStatus => exact ⟨le_refl _, le_refl _, rfl⟩
  | iter iStat oc now =>
      by_cases hrun : s.campaign.status = CampaignStatus.RUNNING
      · by_cases hconn : iStat = InstanceStatus.connected
        · cases hfp : findFirstPending s.messages with
          | none =>
              rw [processIteration_completed s iStat oc now hrun hconn hfp]
              exact ⟨le_refl _, le_refl _, rfl⟩
          | some m =>
              cases oc with
              | success =>
                  rw [processIteration_send_success s iStat now m hrun hconn hfp]
                  exact ⟨Nat.le_succ _, le_refl _, rfl⟩
              | failure err =>
                  rw [processIteration_send_failure s iStat now err m hrun hconn hfp]
                  exact ⟨le_refl _, Nat.le_succ _, rfl⟩
        · rw [processIteration_disconnected s iStat oc now hrun hconn]
          exact ⟨le_refl _, le_refl _, rfl⟩
      · rw [processIteration_not_running s iStat oc now hrun]
        exact ⟨le_refl _, le_refl _, rfl⟩

/-- Claim C2: at every reachable state of the dispatcher module there is at
most one live `processCampaign` loop per campaign id; a call for an id that
is already in `runningProcessors` returns at once without entering the loop
body (so it sends nothing), an id not in the set enters and is recorded, the
id is removed again by the `finally` block (`exitProcessor`), and entering
never removes any id — only a loop exit releases it. -/
theorem claim2_single_loop_guard :
    (∀ s, PReachable s → ∀ cid, s.activeLoops cid ≤ 1) ∧
    (∀ s cid, cid ∈ s.runningProcessors → enterProcessor s cid = (s, false)) ∧
    (∀ s cid, cid ∉ s.runningProcessors →
      (enterProcessor s cid).2 = true ∧
      cid ∈ (enterProcessor s cid).1.runningProcessors) ∧
    (∀ s cid, cid ∉ (exitProcessor s cid).runningProcessors) ∧
    (∀ s cid c, c ∈ s.runningProcessors →
      c ∈ (enterProcessor s cid).1.runningProcessors) := by
  refine ⟨?_, ?_, ?_, ?_, ?_⟩
  · intro s hs cid
    rw [preachable_inv hs cid]
    by_cases h : cid ∈ s.runningProcessors <;> simp [h]
  · intro s cid h
    simp [enterProcessor, h]
  · intro s cid h
    simp [enterProcessor, h]
  · intro s cid
    simp [exitProcessor]
  · intro s cid c h
    by_cases hm : cid ∈ s.runningProcessors
    · simp [enterProcessor, hm, h]
    · simp [enterProcessor, hm, Finset.mem_insert, h]

theorem claim2_witness :
    (⟨∅, fun _ => 0⟩ : ProcessorState).activeLoops "c1" ≤ 1 ∧
    enterProcessor ⟨{"c1"}, fun _ => 1⟩ "c1" = (⟨{"c1"}, fun _ => 1⟩, false) :=
  ⟨claim2_single_loop_guard.1 _ PReachable.init "c1",
   claim2_single_loop_guard.2.1 ⟨{"c1"}, fun _ => 1⟩ "c1" (by simp)⟩

/-- Claim C3: for every reachable campaign state,
`sentMessages + failedMessages ≤ totalMessages`, with equality as soon as the
status is COMPLETED; every step of the system (loop pass, control action,
start, inbound acknowledgement) leaves `totalMessages` unchanged and never
decreases either counter; and creation fixes `totalMessages` to the number of
recipients. -/
theorem claim3_counter_invariants :
    (∀ st, CReachable st →
      st.campaign.sentMessages + st.campaign.failedMessages
          ≤ st.campaign.totalMessages ∧
      (st.campaign.status = CampaignStatus.COMPLETED →
        st.campaign.sentMessages + st.campaign.failedMessages
          = st.campaign.totalMessages)) ∧
    (∀ st st2, Step st st2 →
      st.campaign.sentMessages ≤ st2.campaign.sentMessages ∧
      st.campaign.failedMessages ≤ st2.campaign.failedMessages ∧
      st2.campaign.totalMessages = st.campaign.totalMessages) ∧
    (∀ inp w t, (createSimpleCampaign inp w t).campaign.totalMessages
        = inp.recipients.length) := by
  refine ⟨?_, fun st st2 hs => step_counters_monotone hs, fun inp w t => rfl⟩
  intro st hst
  obtain ⟨h1, h2, h3, h4, h5⟩ := cinv_reachable hst
  constructor
  · omega
  · intro hc
    have := h5 hc
    omega

theorem claim3_witness :
    (createSimpleCampaign
        { name := "c", messageType := "text", messageText := some "hi",
          messageMediaUrl := none, messageCaption := none,
          recipients := ["5511999"], delay := 1000 } none 0).campaign.sentMessages
      + (createSimpleCampaign
        { name := "c", messageType := "text", messageText := some "hi",
          messageMediaUrl := none, messageCaption := none,
          recipients := ["5511999"], delay := 1000 } none 0).campaign.failedMessages
      ≤ (createSimpleCampaign
        { name := "c", messageType := "text", messageText := some "hi",
          messageMediaUrl := none, messageCaption := none,
          recipients := ["5511999"], delay := 1000 } none 0).campaign.totalMessages :=
  (claim3_counter_invariants.1 _ (CReachable.created _ none 0)).1

/-- Claim C4: every control action is validated against the current status
before acting — pause succeeds exactly from RUNNING, resume exactly from
PAUSED (and re-invokes the loop), cancel exactly from a non-terminal status
(PENDING, RUNNING or PAUSED) and writes the terminal CANCELLED, start exactly
from PENDING with the instance reporting connected — and an invalid
transition yields a client error that leaves the stored status unchanged. -/
theorem claim4_control_validation :
    (∀ s, (∃ r, controlCampaign ControlAction.pause s = Except.ok r) ↔
        s = CampaignStatus.RUNNING) ∧
    (controlCampaign ControlAction.pause CampaignStatus.RUNNING
      = Except.ok { newStatus := CampaignStatus.PAUSED, reinvokesLoop := false }) ∧
    (∀ s, (∃ r, controlCampaign ControlAction.resume s = Except.ok r) ↔
        s = CampaignStatus.PAUSED) ∧
    (controlCampaign ControlAction.resume CampaignStatus.PAUSED
      = Except.ok { newStatus := CampaignStatus.RUNNING, reinvokesLoop := true }) ∧
    (∀ s, (∃ r, controlCampaign ControlAction.cancel s = Except.ok r) ↔
        (s ≠ CampaignStatus.COMPLETED ∧ s ≠ CampaignStatus.CANCELLED)) ∧
    (∀ s, s ≠ CampaignStatus.COMPLETED → s ≠ CampaignStatus.CANCELLED →
      controlCampaign ControlAction.cancel s
        = Except.ok { newStatus := CampaignStatus.CANCELLED, reinvokesLoop := false }) ∧
    (∀ s iStat, (∃ r, startCampaign s iStat = Except.ok r) ↔
        (s = CampaignStatus.PENDING ∧ iStat = InstanceStatus.connected)) ∧
    (startCampaign CampaignStatus.PENDING InstanceStatus.connected
      = Except.ok { newStatus := CampaignStatus.RUNNING, reinvokesLoop := true }) ∧
    (∀ a s e, controlCampaign a s = Except.error e → runControl a s = s) ∧
    (∀ s iStat e, startCampaign s iStat = Except.error e → runStart s iStat = s) := by
  refine ⟨?_, rfl, ?_, rfl, ?_, ?_, ?_, rfl, ?_, ?_⟩
  · intro s
    cases s <;> simp [controlCampaign]
  · intro s
    cases s <;> simp [controlCampaign]
  · intro s
    cases s <;> simp [controlCampaign]
  · intro s h1 h2
    cases s <;> simp_all [controlCampaign]
  · intro s iStat
    cases s <;> cases iStat <;> simp [startCampaign]
  · intro a s e h
    unfold runControl
    rw [h]
  · intro s iStat e h
    unfold runStart
    rw [h]

theorem claim4_witness :
    controlCampaign ControlAction.cancel CampaignStatus.PENDING
      = Except.ok { newStatus := CampaignStatus.CANCELLED, reinvokesLoop := false } ∧
    runControl ControlAction.pause CampaignStatus.PENDING = CampaignStatus.PENDING := by
  obtain ⟨h1, h2, h3, h4, h5, h6, h7, h8, h9, h10⟩ := claim4_control_validation
  exact ⟨h6 CampaignStatus.PENDING (by simp) (by simp),
    h9 ControlAction.pause CampaignStatus.PENDING
      (ClientError.badRequest "Campaign is not running") (by simp [controlCampaign])⟩

/-- Claim C5: the relay retry routine makes at most `maxAttempts` delivery
attempts, the sleeps are exactly one per failed non-final attempt with the
k-th sleep lasting `1000 * 2 ^ (k - 1)` milliseconds (1s, 2s, 4s, …, none
after the final attempt), every attempt before the last one returned failure
(so the loop stops immediately on the first 2xx), a delivered run ends on a
successful attempt, and a run that never got a 2xx used exactly
`maxAttempts` attempts, all failed. -/
theorem claim5_retry_policy (maxAttempts : Nat) (outcome : Nat → Bool) :
    (sendWebhookWithRetry maxAttempts outcome).attempts ≤ maxAttempts ∧
    (sendWebhookWithRetry maxAttempts outcome).sleeps
      = (List.range' 1 ((sendWebhookWithRetry maxAttempts outcome).attempts - 1)).map
          (fun k => 1000 * 2 ^ (k - 1)) ∧
    (∀ k, 1 ≤ k → k + 1 < 1 + (sendWebhookWithRetry maxAttempts outcome).attempts →
      outcome k = false) ∧
    ((sendWebhookWithRetry maxAttempts outcome).delivered = true →
      outcome ((sendWebhookWithRetry maxAttempts outcome).attempts) = true) ∧
    ((sendWebhookWithRetry maxAttempts outcome).delivered = false →
      (sendWebhookWithRetry maxAttempts outcome).attempts = maxAttempts ∧
      ∀ k, 1 ≤ k → k ≤ maxAttempts → outcome k = false) := by
  refine ⟨retryGo_attempts_le outcome 1 maxAttempts,
    retryGo_sleeps outcome 1 maxAttempts,
    retryGo_before_last_false outcome 1 maxAttempts, ?_, ?_⟩
  · intro h
    have hpos : 1 ≤ (retryGo outcome 1 maxAttempts).attempts := by
      cases maxAttempts with
      | zero => simp [sendWebhookWithRetry, retryGo] at h
      | succ n => exact retryGo_attempts_pos outcome 1 (n + 1) (by omega)
    have hlast := retryGo_delivered_last outcome 1 maxAttempts h
    have harith : 1 + ((retryGo outcome 1 maxAttempts).attempts - 1)
        = (retryGo outcome 1 maxAttempts).attempts := by omega
    rw [harith] at hlast
    exact hlast
  · intro h
    obtain ⟨ha, hall⟩ := retryGo_not_delivered outcome 1 maxAttempts h
    exact ⟨ha, fun k hk1 hk2 => hall k hk1 (by omega)⟩

theorem claim5_witness :
    (sendWebhookWithRetry 3 (fun k => k == 2)).attempts ≤ 3 ∧
    (sendWebhookWithRetry 3 (fun k => k == 2)).delivered = true ∧
    (fun k : Nat => k == 2) ((sendWebhookWithRetry 3 (fun k => k == 2)).attempts)
      = true := by
  refine ⟨(claim5_retry_policy 3 (fun k => k == 2)).1, by decide, ?_⟩
  exact (claim5_retry_policy 3 (fun k => k == 2)).2.2.2.1 (by decide)

/-- Claim C7: the dispatch loop selects `findFirstPending`, which is the head
of the PENDING sub-list in creation order — a member with status PENDING (so
SENT/FAILED rows are never re-selected) whose creation timestamp is minimal
among the PENDING rows whenever the rows are ordered by `createdAt`; and when
no PENDING row remains the loop pass marks the campaign COMPLETED, records
the completion timestamp, leaves the rows untouched and exits. -/
theorem claim7_selection_and_completion :
    (∀ msgs, findFirstPending msgs
        = (msgs.filter fun m => decide (m.status = MsgStatus.PENDING)).head?) ∧
    (∀ msgs m, findFirstPending msgs = some m →
      m ∈ msgs ∧ m.status = MsgStatus.PENDING ∧
      ((msgs.Pairwise fun a b => a.createdAt ≤ b.createdAt) →
        ∀ x ∈ msgs, x.status = MsgStatus.PENDING → m.createdAt ≤ x.createdAt)) ∧
    (∀ st iStat oc now, st.campaign.status = CampaignStatus.RUNNING →
      iStat = InstanceStatus.connected → findFirstPending st.messages = none →
      (processIteration st iStat oc now).1.campaign.status = CampaignStatus.COMPLETED ∧
      (processIteration st iStat oc now).1.campaign.completedAt = some now ∧
      (processIteration st iStat oc now).1.messages = st.messages ∧
      (processIteration st iStat oc now).2 = IterResult.exitCompleted) := by
  refine ⟨findFirstPending_eq_head_filter, ?_, ?_⟩
  · intro msgs m h
    obtain ⟨h1, h2⟩ := findFirstPending_mem h
    exact ⟨h1, h2, fun hs => findFirstPending_min_createdAt hs h⟩
  · intro st iStat oc now h1 h2 h3
    rw [processIteration_completed st iStat oc now h1 h2 h3]
    exact ⟨rfl, rfl, rfl, rfl⟩

/-- A RUNNING campaign row with no work left. -/
def runningEmptyCampaign : Campaign :=
  { status := CampaignStatus.RUNNING, totalMessages := 0, sentMessages := 0,
    failedMessages := 0, delay := 1000, startedAt := some 0, completedAt := none }

/-- A RUNNING campaign with no message rows. -/
def runningEmptyState : DispatchState :=
  { campaign := runningEmptyCampaign, messages := [] }

theorem claim7_witness :
    (processIteration runningEmptyState InstanceStatus.connected
        SendOutcome.success 5).1.campaign.status = CampaignStatus.COMPLETED ∧
    (processIteration runningEmptyState InstanceStatus.connected
        SendOutcome.success 5).2 = IterResult.exitCompleted := by
  have h := claim7_selection_and_completion.2.2 runningEmptyState
    InstanceStatus.connected SendOutcome.success 5 (by rfl) rfl (by rfl)
  exact ⟨h.1, h.2.2.2⟩

/-- Claim C8: when the gateway send throws, the loop pass marks exactly the
selected message FAILED with the error text, increments only the failed
counter, leaves the campaign RUNNING and every other message row unchanged,
and continues to the next iteration. -/
theorem claim8_send_failure (st : DispatchState) (iStat : InstanceStatus) (now : Nat)
    (err : String) (m : OutboundMessage)
    (h1 : st.campaign.status = CampaignStatus.RUNNING)
    (h2 : iStat = InstanceStatus.connected)
    (h3 : findFirstPending st.messages = some m) :
    (processIteration st iStat (SendOutcome.failure err) now).2
      = IterResult.continueLoop ∧
    (processIteration st iStat (SendOutcome.failure err) now).1.campaign.status
      = CampaignStatus.RUNNING ∧
    (processIteration st iStat (SendOutcome.failure err) now).1.campaign.failedMessages
      = st.campaign.failedMessages + 1 ∧
    (processIteration st iStat (SendOutcome.failure err) now).1.campaign.sentMessages
      = st.campaign.sentMessages ∧
    (processIteration st iStat (SendOutcome.failure err) now).1.campaign.totalMessages
      = st.campaign.totalMessages ∧
    { m with status := MsgStatus.FAILED, errorMsg := some err }
      ∈ (processIteration st iStat (SendOutcome.failure err) now).1.messages ∧
    (∀ x ∈ st.messages, x.mid ≠ m.mid →
      x ∈ (processIteration st iStat (SendOutcome.failure err) now).1.messages) := by
  rw [processIteration_send_failure st iStat now err m h1 h2 h3]
  refine ⟨rfl, h1, rfl, rfl, rfl, ?_, ?_⟩
  · have hm := (findFirstPending_mem h3).1
    have hfm : (fun x => if x.mid = m.mid then
        { x with status := MsgStatus.FAILED, errorMsg := some err } else x) m
        = { m with status := MsgStatus.FAILED, errorMsg := some err } := if_pos rfl
    rw [← hfm]
    exact List.mem_map_of_mem _ hm
  · intro x hx hne
    have hfx : (fun y => if y.mid = m.mid then
        { y with status := MsgStatus.FAILED, errorMsg := some err } else y) x = x :=
      if_neg hne
    rw [← hfx]
    exact List.mem_map_of_mem _ hx

/-- A campaign message still awaiting dispatch. -/
def pendMsg : OutboundMessage :=
  { mid := 0, toNumber := "5511999", msgFrom := "unknown", body := "hi",
    mediaUrl := none, mediaType := "text", status := MsgStatus.PENDING,
    errorMsg := none, waMessageId := none, sentAt := none, createdAt := 0 }

/-- A RUNNING campaign row expecting one message. -/
def onePendingCampaign : Campaign :=
  { status := CampaignStatus.RUNNING, totalMessages := 1, sentMessages := 0,
    failedMessages := 0, delay := 1000, startedAt := some 0, completedAt := none }

/-- A RUNNING campaign with one PENDING message. -/
def onePendingState : DispatchState :=
  { campaign := onePendingCampaign, messages := [pendMsg] }

theorem claim8_witness :
    (processIteration onePendingState InstanceStatus.connected
        (SendOutcome.failure "boom") 7).1.campaign.failedMessages
      = onePendingState.campaign.failedMessages + 1 ∧
    (processIteration onePendingState InstanceStatus.connected
        (SendOutcome.failure "boom") 7).2 = IterResult.continueLoop := by
  have h := claim8_send_failure onePendingState InstanceStatus.connected 7 "boom"
    pendMsg (by rfl) rfl (by rfl)
  exact ⟨h.2.2.1, h.1⟩

/-- Claim C9: a loop pass that observes the owning instance as anything other
than connected transitions the campaign to PAUSED and exits the loop without
touching any message row or counter; the condition is recovered from by the
resume action, which is accepted exactly in PAUSED and re-invokes the loop. -/
theorem claim9_disconnect_pauses (st : DispatchState) (iStat : InstanceStatus)
    (oc : SendOutcome) (now : Nat)
    (h1 : st.campaign.status = CampaignStatus.RUNNING)
    (h2 : iStat ≠ InstanceStatus.connected) :
    (processIteration st iStat oc now).1.campaign.status = CampaignStatus.PAUSED ∧
    (processIteration st iStat oc now).1.messages = st.messages ∧
    (processIteration st iStat oc now).1.campaign.sentMessages
      = st.campaign.sentMessages ∧
    (processIteration st iStat oc now).1.campaign.failedMessages
      = st.campaign.failedMessages ∧
    (processIteration st iStat oc now).2 = IterResult.exitPausedDisconnected ∧
    controlCampaign ControlAction.resume CampaignStatus.PAUSED
      = Except.ok { newStatus := CampaignStatus.RUNNING, reinvokesLoop := true } := by
  rw [processIteration_disconnected st iStat oc now h1 h2]
  exact ⟨rfl, rfl, rfl, rfl, rfl, rfl⟩

theorem claim9_witness :
    (processIteration onePendingState InstanceStatus.disconnected
        SendOutcome.success 3).1.campaign.status = CampaignStatus.PAUSED ∧
    (processIteration onePendingState InstanceStatus.disconnected
        SendOutcome.success 3).2 = IterResult.exitPausedDisconnected := by
  have h := claim9_disconnect_pauses onePendingState InstanceStatus.disconnected
    SendOutcome.success 3 (by rfl) (by decide)
  exact ⟨h.1, h.2.2.2.2.1⟩

theorem sessionHas_iff (sessions : SessionMap) (instanceId : String) :
    sessionHas sessions instanceId = true ↔ instanceId ∈ sessions.map Prod.fst := by
  induction sessions with
  | nil => simp [sessionHas]
  | cons p l ih =>
      by_cases hb : p.1 = instanceId
      · simp [sessionHas, List.find?, hb]
      · simp only [sessionHas, List.find?] at ih ⊢
        have hb2 : (p.1 == instanceId) = false := by simp [hb]
        simp only [hb2, List.map_cons, List.mem_cons]
        rw [ih]
        have h2 : ¬instanceId = p.1 := fun he => hb he.symm
        simp [h2]

/-- Claim C10: `getStatus` answers connected exactly when a credential
session for the id sits in the in-memory map, disconnected otherwise, and
never any of the other three declared states — so the connected check used by
campaign start and the dispatch loop reflects cached credentials only. -/
theorem claim10_getStatus_from_cache (sessions : SessionMap) (instanceId : String) :
    (getStatus sessions instanceId = InstanceStatus.connected ∨
      getStatus sessions instanceId = InstanceStatus.disconnected) ∧
    (getStatus sessions instanceId = InstanceStatus.connected ↔
      instanceId ∈ sessions.map Prod.fst) ∧
    getStatus sessions instanceId ≠ InstanceStatus.connecting ∧
    getStatus sessions instanceId ≠ InstanceStatus.qr ∧
    getStatus sessions instanceId ≠ InstanceStatus.not_found := by
  by_cases h : sessionHas sessions instanceId
  · unfold getStatus
    rw [if_pos h]
    exact ⟨Or.inl rfl,
      iff_of_true rfl ((sessionHas_iff sessions instanceId).mp h),
      by simp, by simp, by simp⟩
  · unfold getStatus
    rw [if_neg h]
    refine ⟨Or.inr rfl, ?_, by simp, by simp, by simp⟩
    exact iff_of_false (by simp)
      fun hmem => h ((sessionHas_iff sessions instanceId).mpr hmem)

/-- A sample cached session. -/
def session0 : OfficialInstanceSession :=
  { phoneNumberId := "555", accessToken := "tok", businessAccountId := "biz" }

theorem claim10_witness :
    getStatus [] "i1" = InstanceStatus.disconnected ∧
    getStatus [("i1", session0)] "i1" = InstanceStatus.connected := by
  have h2 := claim10_getStatus_from_cache [("i1", session0)] "i1"
  have h1 := claim10_getStatus_from_cache ([] : SessionMap) "i1"
  constructor
  · rcases h1.1 with h | h
    · exact absurd (h1.2.1.mp h) (by simp)
    · exact h
  · exact h2.2.1.mpr (by simp)

/-- Claim C1 (counterexample): ingesting the same provider message id twice
yields exactly one InboundMessage row but TWO `message` events — the
`dispatchWebhook(instance.id, 'message', …)` call sits outside the
deduplication guard, so the second ingest emits a second event, contradicting
the claim that at most one `message` event is emitted. -/
theorem claim1_counterexample :
    (processMessageItem [inst0] value0
        (processMessageItem [inst0] value0 (emptyDB, []) msg0) msg0).1.rows.length
      = 1 ∧
    ((processMessageItem [inst0] value0
        (processMessageItem [inst0] value0 (emptyDB, []) msg0) msg0).2.filter
        fun e => e.eventName == "message").length = 2 := by
  decide

/-- Claim C1 (amended): for a resolvable message item, the deduplication
check makes re-ingestion of an already-persisted provider message id add no
row (a fresh id adds exactly one row), but every ingest — duplicate or not —
appends exactly one `message` event, so ingesting the same id twice yields
one row and two events. -/
theorem claim1_dedup_skips_row_not_event (instances : List WInstance)
    (v : ChangeValue) (db : WebhookDB) (evs : List EmittedEvent)
    (m : ProviderMessage) (md : WMetadata) (pid : String) (inst : WInstance)
    (hmd : v.metadata = some md) (hpid : md.phoneNumberId = some pid)
    (hinst : findInstanceByPhone instances pid = some inst) :
    ((db.rows.any fun r => r.waMessageId == m.id) = true →
      (processMessageItem instances v (db, evs) m).1.rows = db.rows) ∧
    ((db.rows.any fun r => r.waMessageId == m.id) = false →
      (processMessageItem instances v (db, evs) m).1.rows.length
        = db.rows.length + 1) ∧
    (processMessageItem instances v (db, evs) m).2
      = evs ++ [{ instanceId := inst.id, eventName := "message", refId := m.id }] := by
  have hrows := upsertContact_rows db inst.id m.msgFrom
    (((v.contacts.getD []).find? fun c => c.waId == m.msgFrom).bind
      ProviderContactEntry.profileName)
  refine ⟨fun hdup => ?_, fun hfresh => ?_, ?_⟩
  · simp [processMessageItem, hmd, hpid, hinst, hrows, hdup]
  · simp [processMessageItem, hmd, hpid, hinst, hrows, hfresh]
  · simp [processMessageItem, hmd, hpid, hinst]

theorem claim1_witness :
    (processMessageItem [inst0] value0
        (processMessageItem [inst0] value0 (emptyDB, []) msg0) msg0).2
      = (processMessageItem [inst0] value0 (emptyDB, []) msg0).2
        ++ [{ instanceId := inst0.id, eventName := "message", refId := msg0.id }] := by
  have h := claim1_dedup_skips_row_not_event [inst0] value0
    (processMessageItem [inst0] value0 (emptyDB, []) msg0).1
    (processMessageItem [inst0] value0 (emptyDB, []) msg0).2
    msg0 { phoneNumberId := some "555", displayPhoneNumber := "15550001111" }
    "555" inst0 (by rfl) (by rfl) (by rfl)
  exact h.2.2

/-- Claim C6 (counterexample): a batch whose first entry holds a status item
with an id but no status value makes the handler throw inside the single
try/catch — the response is a 500 rather than the success acknowledgement,
and the sibling entry carrying a fresh message is never processed (no row
persisted, no event emitted), contradicting both the always-ok claim and the
item-independence claim. -/
theorem claim6_counterexample :
    (webhookPost [inst0] emptyDB (some body0)).2.2 = IngestResponse.serverError ∧
    (webhookPost [inst0] emptyDB (some body0)).1.rows = [] ∧
    (webhookPost [inst0] emptyDB (some body0)).2.1 = [] := by
  decide

/-- Claim C6 (amended): an unparseable payload yields an error response with
nothing persisted; a parseable payload is acknowledged with success provided
no item throws — in this model the only throwing item is a status update
carrying an id but no status value (message items never throw, and an item
whose phone-number id resolves to no instance is dropped as a no-op) — while
a throwing item aborts its remaining siblings and turns the response into an
error. -/
theorem claim6_ack_and_abort :
    (∀ instances db, webhookPost instances db none
        = (db, [], IngestResponse.serverError)) ∧
    (∀ instances db b,
      (∀ e ∈ b.entry.getD [], ∀ ch ∈ e.changes.getD [],
        ∀ st ∈ ch.value.statuses.getD [],
        st.statusId.isSome → st.statusField.isSome) →
      (webhookPost instances db (some b)).2.2 = IngestResponse.okAck) ∧
    (∀ instances v s m md pid, v.metadata = some md → md.phoneNumberId = some pid →
      findInstanceByPhone instances pid = none →
      processMessageItem instances v s m = s) := by
  refine ⟨fun instances db => rfl, ?_, ?_⟩
  · intro instances db b h
    simp only [webhookPost]
    by_cases hobj : b.object = "whatsapp_business_account"
    · rw [if_pos hobj]
      have hnone := processEntries_no_throw instances (b.entry.getD []) (db, []) h
      cases hpe : processEntries instances (db, []) (b.entry.getD []) with
      | mk s2 e =>
          rw [hpe] at hnone
          cases s2 with
          | mk db2 evs =>
              cases e with
              | none => rfl
              | some er => simp at hnone
    · rw [if_neg hobj]
  · intro instances v s m md pid hmd hpid hni
    simp [processMessageItem, hmd, hpid, hni]

/-- A batch holding only the sibling entry with a fresh message. -/
def bodyOk : WebhookBody :=
  { object := "whatsapp_business_account", entry := some [entrySibling] }

theorem claim6_witness :
    (webhookPost [inst0] emptyDB (some bodyOk)).2.2 = IngestResponse.okAck :=
  claim6_ack_and_abort.2.1 [inst0] emptyDB bodyOk (by decide)

end OFC
